import Mathlib

/-
Verification of the query parsing and compilation engine of the simpleflow
crawl-analytics repository (cdf.query). The engine itself (cdf/query/query.py,
cdf/query/query_parsing.py, cdf/query/constants.py) is not shipped under src/;
only its test suite (src/tests/query/test_query_parsing.py) is. The embedding
below is therefore modelled from the spec (spec.md sections 3, 4, 6, 7), kept
faithful to the behaviour pinned down by the in-repository tests wherever the
two disagree.
-/

namespace CDF

/-- Modelled from the spec: the loosely-typed JSON-like values that the raw
query clauses and the compiled engine documents are made of (section 6).
Mappings are kept as ordered association lists. -/
inductive JsonVal where
  | str (s : String)
  | num (n : Int)
  | bool (b : Bool)
  | arr (xs : List JsonVal)
  | obj (kvs : List (String × JsonVal))

/-- Modelled from the spec: whether a value is a sequence (used by the
cardinality checks of the semantic validator, section 4.2). -/
def JsonVal.isArr : JsonVal → Bool
  | .arr _ => true
  | _ => false

/-- Modelled from the spec: a field descriptor of the field schema
(section 3): value type, list-valuedness, aggregation capabilities and
explicit field rights. An empty `rights` list means the field is
unrestricted (the stub format of the tests only lists rights for the two
fields that restrict them). -/
structure FieldDescriptor where
  valueType : String
  isList : Bool
  categorical : Bool
  numerical : Bool
  isComposite : Bool
  rights : List String

/-- Modelled from the spec: the immutable field schema, a mapping from field
name to descriptor (section 3). -/
def FieldSchema := List (String × FieldDescriptor)

/-- Modelled from the spec: schema lookup of a field name. -/
def FieldSchema.find (schema : FieldSchema) (f : String) : Option FieldDescriptor :=
  List.lookup f schema

/-- Modelled from the spec: right check; a descriptor with no explicit
rights grants every right (the stub schema of the tests restricts rights
only on `filterable_only_field` and `selectable_only_field`). -/
def FieldDescriptor.hasRight (d : FieldDescriptor) (r : String) : Bool :=
  d.rights.isEmpty || d.rights.contains r

/- ===== Sorts ===== -/

/-- Modelled from the spec: one element of a `SortSpec` (section 3): a field
name with an optional raw order value (the order value is checked against
`asc`/`desc` only by the semantic validator, as the tests show). -/
structure SortElem where
  field : String
  order : Option JsonVal

/-- Modelled from the spec: structural parsing of one sort element
(section 4.1): a bare field name, or a single-key mapping whose value is
itself a mapping. -/
def parseSortElem : JsonVal → Option SortElem
  | .str f => some ⟨f, none⟩
  | .obj [(f, .obj kvs)] => some ⟨f, List.lookup "order" kvs⟩
  | _ => none

/-- Modelled from the spec: parsing of a sequence of sort elements, in
order, failing on the first malformed element. -/
def parseSortList : List JsonVal → Option (List SortElem)
  | [] => some []
  | x :: xs =>
    match parseSortElem x, parseSortList xs with
    | some e, some es => some (e :: es)
    | _, _ => none

/-- Modelled from the spec: `parse_sorts` (section 4.1): the input must be an
ordered sequence of sort elements. -/
def parse_sorts : JsonVal → Option (List SortElem)
  | .arr xs => parseSortList xs
  | _ => none

/-- Modelled from the spec: compilation of one sort element (section 4.3):
the field maps to an object with "ignore_unmapped" true and, when given,
the "order" value. -/
def SortElem.transform : SortElem → JsonVal
  | ⟨f, none⟩ => .obj [(f, .obj [("ignore_unmapped", .bool true)])]
  | ⟨f, some o⟩ => .obj [(f, .obj [("order", o), ("ignore_unmapped", .bool true)])]

/-- Modelled from the spec: compilation of a parsed sort clause, preserving
the input order (section 4.3). -/
def sortsTransform (s : List SortElem) : JsonVal :=
  .arr (s.map SortElem.transform)

/-- Modelled from the spec: semantic validation of one sort element
(section 4.2): the field must exist, must not be a composite
aggregation-derived field, and the order value, when given, must be exactly
"asc" or "desc". -/
def SortElem.validate (schema : FieldSchema) : SortElem → Bool
  | ⟨f, o⟩ =>
    (match schema.find f with
     | some d => !d.isComposite
     | none => false)
    && (match o with
        | none => true
        | some (.str s) => s = "asc" || s = "desc"
        | some _ => false)

/-- Modelled from the spec: semantic validation of a sort clause. -/
def sortsValidate (schema : FieldSchema) (s : List SortElem) : Bool :=
  s.all (SortElem.validate schema)

/- ===== Fields ===== -/

/-- Modelled from the spec: parsing of a sequence of field names: every
element must be a string. -/
def parseFieldList : List JsonVal → Option (List String)
  | [] => some []
  | .str s :: xs => (parseFieldList xs).map (fun fs => s :: fs)
  | _ :: _ => none

/-- Modelled from the spec: `parse_fields` (section 4.1): the input must be
an ordered sequence of strings. -/
def parse_fields : JsonVal → Option (List String)
  | .arr xs => parseFieldList xs
  | _ => none

/-- Modelled from the spec: compilation of a field selection is the identity
passthrough (section 4.3). -/
def fieldsTransform (fs : List String) : JsonVal :=
  .arr (fs.map .str)

/-- Modelled from the spec: semantic validation of a field selection
(section 4.2): every field must exist and carry the SELECT right. -/
def fieldsValidate (schema : FieldSchema) (fs : List String) : Bool :=
  fs.all (fun f =>
    match schema.find f with
    | some d => d.hasRight "select"
    | none => false)

/- ===== Filters ===== -/

/-- Modelled from the spec: the filter AST (section 3): a tagged union of
predicate filters, negation, and boolean combination with an ordered list
of children. -/
inductive Filter where
  | predicate (pred : String) (field : String) (value : Option JsonVal)
  | not (inner : Filter)
  | boolean (op : String) (children : List Filter)

/-- Modelled from the spec: the predicate taxonomy visible in the tests:
for each known predicate name, whether it requires a value and whether it
is a list-valued predicate (section 4.2). -/
def predInfo (p : String) : Option (Bool × Bool) :=
  if p = "eq" then some (true, false)
  else if p = "exists" then some (false, false)
  else if p = "any.contains" then some (true, true)
  else none

/-- Modelled from the spec: structural parsing of a predicate filter
(section 4.1): a mapping with required `field`, optional `predicate`
(defaulting to eq) and an optional raw `value`. -/
def parse_predicate_filter : JsonVal → Option Filter
  | .obj kvs =>
    match List.lookup "field" kvs with
    | some (.str f) =>
      (match List.lookup "predicate" kvs with
       | none => some "eq"
       | some (.str p) => some p
       | some _ => none).map
        (fun p => Filter.predicate p f (List.lookup "value" kvs))
    | _ => none
  | _ => none

mutual

/-- Modelled from the spec: `parse_filter` (section 4.1): a single-key
"not" mapping is a negation, a single-key "and"/"or" mapping whose value
is a sequence is a boolean filter (any non-sequence operand fails), and
anything else is parsed as a predicate filter. -/
def parse_filter : JsonVal → Option Filter
  | .obj [(k, v)] =>
    if k = "not" then (parse_filter v).map Filter.not
    else if k = "and" ∨ k = "or" then
      match v with
      | .arr xs => (parse_filter_list xs).map (Filter.boolean k)
      | _ => none
    else parse_predicate_filter (.obj [(k, v)])
  | j => parse_predicate_filter j

/-- Modelled from the spec: parsing of a sequence of filters, in order. -/
def parse_filter_list : List JsonVal → Option (List Filter)
  | [] => some []
  | x :: xs =>
    match parse_filter x, parse_filter_list xs with
    | some f, some fs => some (f :: fs)
    | _, _ => none

end

/-- Modelled from the spec: `parse_not_filter` entry point (section 4.1). -/
def parse_not_filter : JsonVal → Option Filter
  | .obj [("not", v)] => (parse_filter v).map Filter.not
  | _ => none

/-- Modelled from the spec: `parse_boolean_filter` entry point
(section 4.1): fails whenever the operand is not a sequence. -/
def parse_boolean_filter : JsonVal → Option Filter
  | .obj [(k, v)] =>
    if k = "and" ∨ k = "or" then
      match v with
      | .arr xs => (parse_filter_list xs).map (Filter.boolean k)
      | _ => none
    else none
  | _ => none

/-- Modelled from the spec: compilation of one predicate filter
(section 4.3): eq becomes a term document, exists omits the value, other
predicates form the analogous single-key document. -/
def predicateDoc (p f : String) (v : Option JsonVal) : JsonVal :=
  if p = "eq" then
    match v with
    | some u => .obj [("term", .obj [(f, u)])]
    | none => .obj [("term", .obj [(f, .obj [])])]
  else if p = "exists" then .obj [("exists", .obj [("field", .str f)])]
  else
    match v with
    | some u => .obj [(p, .obj [(f, u)])]
    | none => .obj [(p, .obj [(f, .obj [])])]

mutual

/-- Modelled from the spec: filter compilation (section 4.3): negation
wraps in a "not" key, boolean filters compile each child in input order. -/
def Filter.transform : Filter → JsonVal
  | .predicate p f v => predicateDoc p f v
  | .not inner => .obj [("not", Filter.transform inner)]
  | .boolean op cs => .obj [(op, .arr (filterTransformList cs))]

/-- Modelled from the spec: compilation of a list of filters, in order. -/
def filterTransformList : List Filter → List JsonVal
  | [] => []
  | f :: fs => Filter.transform f :: filterTransformList fs

end

/-- Modelled from the spec: semantic validation of a predicate filter
(section 4.2): known predicate, existing non-composite field, list
predicates on list fields only, value present exactly when required, and a
scalar (non-sequence) value on scalar fields. FILTER-right enforcement is
deactivated, following the skipped test test_wrong_fields_filter
("Temporarily deactivate field right filtering"). -/
def predicateValidate (schema : FieldSchema) (p f : String) (v : Option JsonVal) : Bool :=
  match predInfo p, schema.find f with
  | some pi, some d =>
    !d.isComposite
    && (pi.2 == d.isList)
    && (match pi.1, v with
        | true, some u => d.isList || !u.isArr
        | true, none => false
        | false, some _ => false
        | false, none => true)
  | _, _ => false

mutual

/-- Modelled from the spec: semantic validation of a filter (section 4.2),
walking the tree. -/
def Filter.validate (schema : FieldSchema) : Filter → Bool
  | .predicate p f v => predicateValidate schema p f v
  | .not inner => Filter.validate schema inner
  | .boolean _ cs => filterValidateList schema cs

/-- Modelled from the spec: validation of a list of filters. -/
def filterValidateList (schema : FieldSchema) : List Filter → Bool
  | [] => true
  | f :: fs => Filter.validate schema f && filterValidateList schema fs

end

/- ===== Aggregations ===== -/

/-- Modelled from the spec: the fixed maximum bucket count used by terms
aggregations, a named constant from cdf/query/constants.py whose value is
fixed per deployment (section 6); the claims use it only symbolically. -/
def DISTINCT_AGG_BUCKET_SIZE : Nat := 300

/-- Modelled from the spec: a group-by operator (section 3): Distinct on a
field, or Range on a field with a list of raw range buckets. The bucket
key sets are checked by the semantic validator, not by the parser, as
test_wrong_range_structure shows (it parses successfully and fails only on
validate). -/
inductive GroupOp where
  | distinct (field : String)
  | range (field : String) (ranges : List (List (String × JsonVal)))

/-- Modelled from the spec: the target field of a group-by operator. -/
def GroupOp.field : GroupOp → String
  | .distinct f => f
  | .range f _ => f

/-- Modelled from the spec: a metric operator (section 3): the bare Count,
or a named numeric operator over a field. -/
inductive MetricOp where
  | count
  | op (name : String) (field : String)

/-- Modelled from the spec: an aggregation spec (section 3): an ordered,
possibly empty group-by list and an ordered metrics list. -/
structure AggregationSpec where
  group_by : List GroupOp
  metrics : List MetricOp

/-- Modelled from the spec: a raw range bucket must be a mapping; its
key-value pairs are kept as given. -/
def bucketOf : JsonVal → Option (List (String × JsonVal))
  | .obj kv => some kv
  | _ => none

/-- Modelled from the spec: parsing of the raw range-bucket sequence: every
entry must be a mapping; the bucket keys themselves are left for the
semantic validator. -/
def parseBucketList : List JsonVal → Option (List (List (String × JsonVal)))
  | [] => some []
  | x :: xs =>
    match bucketOf x, parseBucketList xs with
    | some b, some bs => some (b :: bs)
    | _, _ => none

/-- Modelled from the spec: structural parsing of one group-by entry
(section 4.1): a bare string means Distinct on that field; a single-key
"distinct" mapping carries the field (directly or under a "field" key); a
single-key "range" mapping carries the field and the raw bucket list; any
other operator name fails structurally. -/
def parse_group_op : JsonVal → Option GroupOp
  | .str f => some (.distinct f)
  | .obj [(k, v)] =>
    if k = "distinct" then
      match v with
      | .str f => some (.distinct f)
      | .obj kvs =>
        match List.lookup "field" kvs with
        | some (.str f) => some (.distinct f)
        | _ => none
      | _ => none
    else if k = "range" then
      match v with
      | .obj kvs =>
        match List.lookup "field" kvs, List.lookup "ranges" kvs with
        | some (.str f), some (.arr rs) => (parseBucketList rs).map (GroupOp.range f)
        | _, _ => none
      | _ => none
    else none
  | _ => none

/-- Modelled from the spec: parsing of the group-by sequence, in order. -/
def parseGroupOpList : List JsonVal → Option (List GroupOp)
  | [] => some []
  | x :: xs =>
    match parse_group_op x, parseGroupOpList xs with
    | some g, some gs => some (g :: gs)
    | _, _ => none

/-- Modelled from the spec: structural parsing of one metric entry
(section 4.1): the bare string "count" is the only permitted string
shortcut; every other operator must be a single-key mapping from a known
operator name to a field name string. Count also parses in its single-key
object form with a field-name string or a field-spec mapping as argument
(the bare shortcut stands for the object form with the reserved
identifier field, and Count counts documents irrespective of any field
argument, sections 3, 4.3 and 8). -/
def parse_metric : JsonVal → Option MetricOp
  | .str s => if s = "count" then some .count else none
  | .obj [(k, v)] =>
    if k = "count" then
      match v with
      | .str _ => some .count
      | .obj _ => some .count
      | _ => none
    else if k = "sum" ∨ k = "avg" ∨ k = "min" ∨ k = "max" then
      match v with
      | .str f => some (.op k f)
      | _ => none
    else none
  | _ => none

/-- Modelled from the spec: parsing of a sequence of metric entries, in
order. -/
def parseMetricList : List JsonVal → Option (List MetricOp)
  | [] => some []
  | x :: xs =>
    match parse_metric x, parseMetricList xs with
    | some m, some ms => some (m :: ms)
    | _, _ => none

/-- Modelled from the spec: the metrics key accepts a sequence or a
singular entry (section 4.1). -/
def parseMetricsValue : JsonVal → Option (List MetricOp)
  | .arr xs => parseMetricList xs
  | v => (parse_metric v).map (fun m => [m])

/-- Modelled from the spec: the group-by part of one aggregation spec
mapping (section 4.1): the optional `group_by` key must hold a sequence;
an absent key means an empty group-by. -/
def aggGroupByOf (kvs : List (String × JsonVal)) : Option (List GroupOp) :=
  match List.lookup "group_by" kvs with
  | none => some []
  | some (.arr xs) => parseGroupOpList xs
  | some _ => none

/-- Modelled from the spec: the metrics part of one aggregation spec
mapping (section 4.1): the `metrics` key (or, failing that, the singular
`metric` key) is parsed when present; when both are absent the metrics
default to a single Count. -/
def aggMetricsOf (kvs : List (String × JsonVal)) : Option (List MetricOp) :=
  match List.lookup "metrics" kvs with
  | some v => parseMetricsValue v
  | none =>
    match List.lookup "metric" kvs with
    | some v => parseMetricsValue v
    | none => some [MetricOp.count]

/-- Modelled from the spec: structural parsing of one aggregation spec
(section 4.1): optional `group_by` sequence, optional `metrics` (or
singular `metric`) defaulting to a single Count when omitted. -/
def parse_aggregation : JsonVal → Option AggregationSpec
  | .obj kvs =>
    match aggGroupByOf kvs, aggMetricsOf kvs with
    | some gb, some ms => some ⟨gb, ms⟩
    | _, _ => none
  | _ => none

/-- Modelled from the spec: parsing of the sequence of aggregation specs,
in order. -/
def parseAggSpecList : List JsonVal → Option (List AggregationSpec)
  | [] => some []
  | x :: xs =>
    match parse_aggregation x, parseAggSpecList xs with
    | some s, some ss => some (s :: ss)
    | _, _ => none

/-- Modelled from the spec: `parse_aggregations` (section 4.1): an ordered
sequence of aggregation spec mappings. The parser never consults the field
schema. -/
def parse_aggregations : JsonVal → Option (List AggregationSpec)
  | .arr xs => parseAggSpecList xs
  | _ => none

/-- Modelled from the spec: zero-padded two-digit rendering of the position
indices used in the synthetic keys (section 4.3). -/
def pad2 (n : Nat) : String :=
  if n < 10 then "0" ++ toString n else toString n

/-- Modelled from the spec: compilation of one metric operator
(section 4.3): Count always compiles to a document count over the reserved
identifier field, regardless of any field argument; the others name their
field. -/
def MetricOp.transform : MetricOp → JsonVal
  | .count => .obj [("value_count", .obj [("field", .str "id")])]
  | .op name f => .obj [(name, .obj [("field", .str f)])]

/-- Modelled from the spec: the metric leaf entries (section 4.3): the
metric at 0-based position j becomes the key "metricagg_" followed by j
zero-padded to two digits. The first argument is the position of the first
metric. -/
def metricEntries : Nat → List MetricOp → List (String × JsonVal)
  | _, [] => []
  | j, m :: ms => ("metricagg_" ++ pad2 j, m.transform) :: metricEntries (j + 1) ms

/-- Modelled from the spec: the metric leaf document (section 4.3). -/
def metricLeaf (ms : List MetricOp) : JsonVal :=
  .obj (metricEntries 0 ms)

/-- Modelled from the spec: the bucket document of one group-by operator
(section 4.3): Distinct becomes a terms bucket with the fixed bucket-size
constant and buckets ordered ascending by term; Range becomes a range
bucket with the raw bucket list. -/
def GroupOp.bucket : GroupOp → JsonVal
  | .distinct f =>
    .obj [("terms", .obj [("field", .str f),
                          ("size", .num (DISTINCT_AGG_BUCKET_SIZE : Int)),
                          ("order", .obj [("_term", .str "asc")])])]
  | .range f rs =>
    .obj [("range", .obj [("field", .str f),
                          ("ranges", .arr (rs.map JsonVal.obj))])]

/-- Modelled from the spec: attach an "aggs" child to a bucket document. -/
def withAggs : JsonVal → JsonVal → JsonVal
  | .obj kvs, child => .obj (kvs ++ [("aggs", child)])
  | j, _ => j

/-- Modelled from the spec: the grouped branch (section 4.3): the first
group-by entry is the outermost bucket; each following entry is nested
recursively under the fixed key "subagg"; the innermost level carries the
metric leaf as its children. -/
def aggTree (leaf : JsonVal) : List GroupOp → JsonVal
  | [] => leaf
  | [g] => withAggs g.bucket leaf
  | g :: rest => withAggs g.bucket (.obj [("subagg", aggTree leaf rest)])

/-- Modelled from the spec: compilation of one aggregation spec into its
branch (section 4.3): with an empty group-by, the metric leaf is wrapped
together with a catch-all match filter; otherwise the grouped branch is
built from the group-by list. -/
def AggregationSpec.transform (s : AggregationSpec) : JsonVal :=
  match s.group_by with
  | [] => .obj [("filter", .obj [("match_all", .obj [])]),
                ("aggs", metricLeaf s.metrics)]
  | gs => aggTree (metricLeaf s.metrics) gs

/-- Modelled from the spec: the key naming a branch in the combined output
(section 4.3): the spec at 0-based position i uses the synthetic key
"queryagg_" with i zero-padded when its group-by is empty, and the first
group-by field name otherwise. -/
def aggName (i : Nat) (s : AggregationSpec) : String :=
  match s.group_by with
  | [] => "queryagg_" ++ pad2 i
  | g :: _ => g.field

/-- Modelled from the spec: the named branches of a whole aggregation
clause, positions counted from the first argument. -/
def namedAggEntries : Nat → List AggregationSpec → List (String × JsonVal)
  | _, [] => []
  | i, s :: rest => (aggName i s, s.transform) :: namedAggEntries (i + 1) rest

/-- Modelled from the spec: compilation of a whole aggregation clause into
the combined named document (section 4.3). -/
def aggregationsTransform (specs : List AggregationSpec) : JsonVal :=
  .obj (namedAggEntries 0 specs)

/-- Modelled from the spec: a well-formed range bucket holds at least one
of the keys "from"/"to" and no other key (section 3); checked by the
semantic validator, as test_wrong_range_structure shows. -/
def validBucket (b : List (String × JsonVal)) : Bool :=
  !b.isEmpty && b.all (fun kv => kv.1 = "from" || kv.1 = "to")

/-- Modelled from the spec: semantic validation of a group-by operator
(section 4.2): a Distinct target must exist and carry CATEGORICAL; a Range
target must exist and carry NUMERICAL, and every range bucket must be
well-formed. -/
def GroupOp.validate (schema : FieldSchema) : GroupOp → Bool
  | .distinct f =>
    (match schema.find f with
     | some d => d.categorical
     | none => false)
  | .range f rs =>
    (match schema.find f with
     | some d => d.numerical
     | none => false)
    && rs.all validBucket

/-- Modelled from the spec: semantic validation of a metric operator
(section 4.2): Count needs nothing; the others need an existing NUMERICAL
field. -/
def MetricOp.validate (schema : FieldSchema) : MetricOp → Bool
  | .count => true
  | .op _ f =>
    match schema.find f with
    | some d => d.numerical
    | none => false

/-- Modelled from the spec: semantic validation of one aggregation spec. -/
def AggregationSpec.validate (schema : FieldSchema) (s : AggregationSpec) : Bool :=
  s.group_by.all (GroupOp.validate schema) && s.metrics.all (MetricOp.validate schema)

/-- Modelled from the spec: semantic validation of a whole aggregation
clause. -/
def aggregationsValidate (schema : FieldSchema) (specs : List AggregationSpec) : Bool :=
  specs.all (AggregationSpec.validate schema)

/- ===== The stub schema of the test suite ===== -/

/-- Modelled from the spec: the field schema built from the stub format of
src/tests/query/test_query_parsing.py, extended with the backend default
fields the tests also reference (id, path, depth). Fields carrying no
explicit rights entry are unrestricted. -/
def stubSchema : FieldSchema :=
  [("http_code", ⟨"integer", false, true, true, false, []⟩),
   ("host", ⟨"string", false, true, false, false, []⟩),
   ("metadata.title.nb", ⟨"integer", false, false, true, false, []⟩),
   ("filterable_only_field", ⟨"string", false, false, false, false, ["filters"]⟩),
   ("selectable_only_field", ⟨"string", false, false, false, false, ["select"]⟩),
   ("path", ⟨"string", false, false, false, false, []⟩),
   ("id", ⟨"string", false, false, false, false, []⟩),
   ("depth", ⟨"integer", false, true, true, false, []⟩)]

/- ===== Spec-side raw-input constructors ===== -/

/-- Spec-side: the raw single-key "range" group-by entry with a field name
and a raw bucket sequence, as written in the tests. -/
def rangeGroupRaw (f : String) (rsj : List JsonVal) : JsonVal :=
  .obj [("range", .obj [("field", .str f), ("ranges", .arr rsj)])]

/-- Spec-side: a raw aggregation clause holding one spec whose group-by is
a single range entry (metrics omitted). -/
def rangeAggRaw (f : String) (rsj : List JsonVal) : JsonVal :=
  .arr [.obj [("group_by", .arr [rangeGroupRaw f rsj])]]

/-- Spec-side: a well-formed raw sort entry is a bare field name or a
field with an order value. -/
def rawSortEntry : String ⊕ String × JsonVal → JsonVal
  | .inl f => .str f
  | .inr (f, o) => .obj [(f, .obj [("order", o)])]

/-- Spec-side: the sort AST element such an entry should parse to. -/
def astSortEntry : String ⊕ String × JsonVal → SortElem
  | .inl f => ⟨f, none⟩
  | .inr (f, o) => ⟨f, some o⟩

/-- Spec-side: the compiled document the spec promises for such an entry. -/
def docSortEntry : String ⊕ String × JsonVal → JsonVal
  | .inl f => .obj [(f, .obj [("ignore_unmapped", .bool true)])]
  | .inr (f, o) => .obj [(f, .obj [("order", o), ("ignore_unmapped", .bool true)])]

/- ===== Shared lemmas ===== -/

theorem parseBucketList_map_obj (rs : List (List (String × JsonVal))) :
    parseBucketList (rs.map JsonVal.obj) = some rs := by
  induction rs with
  | nil => rfl
  | cons b bs ih => simp [parseBucketList, bucketOf, ih]

theorem parse_aggregations_rangeAggRaw (f : String) (rsj : List JsonVal) :
    parse_aggregations (rangeAggRaw f rsj)
      = (parseBucketList rsj).map (fun bs => [⟨[.range f bs], [.count]⟩]) := by
  have hg : parse_group_op (rangeGroupRaw f rsj)
      = (parseBucketList rsj).map (GroupOp.range f) := rfl
  have ha : aggGroupByOf [("group_by", .arr [rangeGroupRaw f rsj])]
      = parseGroupOpList [rangeGroupRaw f rsj] := rfl
  have hm : aggMetricsOf [("group_by", .arr [rangeGroupRaw f rsj])]
      = some [MetricOp.count] := rfl
  cases h : parseBucketList rsj with
  | none =>
    simp [parse_aggregations, rangeAggRaw, parseAggSpecList, parse_aggregation,
          ha, hm, parseGroupOpList, hg, h]
  | some bs =>
    simp [parse_aggregations, rangeAggRaw, parseAggSpecList, parse_aggregation,
          ha, hm, parseGroupOpList, hg, h]

theorem filterTransformList_eq_map (fs : List Filter) :
    filterTransformList fs = fs.map Filter.transform := by
  induction fs with
  | nil => rfl
  | cons f fs ih => simp [filterTransformList, ih]

/- ===== C7: sort compilation ===== -/

theorem parseSortList_map_rawSortEntry (es : List (String ⊕ String × JsonVal)) :
    parseSortList (es.map rawSortEntry) = some (es.map astSortEntry) := by
  induction es with
  | nil => rfl
  | cons x xs ih =>
    have hx : parseSortElem (rawSortEntry x) = some (astSortEntry x) := by
      rcases x with f | ⟨f, o⟩ <;> rfl
    simp [parseSortList, hx, ih]

theorem transform_astSortEntry (x : String ⊕ String × JsonVal) :
    SortElem.transform (astSortEntry x) = docSortEntry x := by
  rcases x with f | ⟨f, o⟩ <;> rfl

/-- Claim C7: for every well-formed sort input sequence, parsing then
compiling maps each bare field name f to the object binding f to
ignore_unmapped true, and each ordered entry to the object also carrying
its order value, with output order equal to input order; in particular the
concrete input of the test compiles to the expected pair of documents. -/
theorem c7_sort_transform :
    (∀ es : List (String ⊕ String × JsonVal),
      parse_sorts (.arr (es.map rawSortEntry)) = some (es.map astSortEntry)
      ∧ sortsTransform (es.map astSortEntry) = .arr (es.map docSortEntry))
    ∧ (parse_sorts (.arr [.str "id",
          .obj [("http_code", .obj [("order", .str "desc")])]])).map sortsTransform
      = some (.arr [.obj [("id", .obj [("ignore_unmapped", .bool true)])],
                    .obj [("http_code", .obj [("order", .str "desc"),
                                              ("ignore_unmapped", .bool true)])]]) := by
  refine ⟨fun es => ⟨?_, ?_⟩, rfl⟩
  · simpa [parse_sorts] using parseSortList_map_rawSortEntry es
  · simp [sortsTransform, List.map_map, Function.comp_def, transform_astSortEntry]

/- ===== C2: single distinct group-by with bare count metric ===== -/

/-- Claim C2: for every aggregation spec whose group-by is a single
Distinct on field f and whose metric is the bare string "count", parsing
succeeds and the compiled grouped branch is exactly a terms bucket on f
with the fixed bucket-size constant, buckets ordered ascending by term,
and the count metric compiled as a value_count over the reserved
identifier field under the key metricagg_00. -/
theorem c2_single_distinct_count (f : String) :
    parse_aggregations (.arr [.obj
        [("group_by", .arr [.obj [("distinct", .obj [("field", .str f)])]]),
         ("metric", .str "count")]])
      = some [⟨[.distinct f], [.count]⟩]
    ∧ AggregationSpec.transform ⟨[.distinct f], [.count]⟩
      = .obj [("terms", .obj [("field", .str f),
                              ("size", .num (DISTINCT_AGG_BUCKET_SIZE : Int)),
                              ("order", .obj [("_term", .str "asc")])]),
              ("aggs", .obj [("metricagg_00",
                  .obj [("value_count", .obj [("field", .str "id")])])])] :=
  ⟨rfl, rfl⟩

/- ===== C3: multi-level group-by nesting ===== -/

/-- Claim C3: for every aggregation spec whose group-by has two or more
entries, the first entry compiles to the outermost bucket, the remaining
entries are nested recursively in input order under the fixed key
"subagg", and the metric leaf sits at the innermost level; the concrete
two-level input of the test parses and compiles to the expected nested
document. -/
theorem c3_nested_group_by :
    (∀ (g : GroupOp) (gs : List GroupOp) (ms : List MetricOp), gs ≠ [] →
      AggregationSpec.transform ⟨g :: gs, ms⟩
        = withAggs g.bucket (.obj [("subagg", aggTree (metricLeaf ms) gs)]))
    ∧ parse_aggregations (.arr [.obj
        [("group_by", .arr [.obj [("distinct", .obj [("field", .str "http_code")])],
                            .str "depth"]),
         ("metric", .str "count")]])
      = some [⟨[.distinct "http_code", .distinct "depth"], [.count]⟩]
    ∧ AggregationSpec.transform ⟨[.distinct "http_code", .distinct "depth"], [.count]⟩
      = .obj [("terms", .obj [("field", .str "http_code"),
                              ("size", .num (DISTINCT_AGG_BUCKET_SIZE : Int)),
                              ("order", .obj [("_term", .str "asc")])]),
              ("aggs", .obj [("subagg",
                .obj [("terms", .obj [("field", .str "depth"),
                                      ("size", .num (DISTINCT_AGG_BUCKET_SIZE : Int)),
                                      ("order", .obj [("_term", .str "asc")])]),
                      ("aggs", .obj [("metricagg_00",
                          .obj [("value_count", .obj [("field", .str "id")])])])])])] := by
  refine ⟨fun g gs ms hgs => ?_, rfl, rfl⟩
  cases gs with
  | nil => exact absurd rfl hgs
  | cons g2 rest => rfl

/-- Witness for C3, instantiating the nesting rule at the concrete
two-level group-by of the test. -/
theorem c3_nested_group_by_witness :
    AggregationSpec.transform ⟨[.distinct "http_code", .distinct "depth"], [.count]⟩
      = withAggs (GroupOp.distinct "http_code").bucket
          (.obj [("subagg", aggTree (metricLeaf [MetricOp.count]) [.distinct "depth"])]) :=
  c3_nested_group_by.1 (GroupOp.distinct "http_code") [.distinct "depth"] [.count]
    (by simp)

/- ===== C1: malformed range buckets ===== -/

/-- Counterexample to claim C1: on the exact malformed range-bucket input
of test_wrong_range_structure (bucket keys "a"/"b"), `parse_aggregations`
does not fail: it returns a parsed aggregation, and the failure only
appears when the parsed result is validated. -/
theorem c1_counterexample :
    parse_aggregations (rangeAggRaw "http_code"
        [.obj [("a", .num 100), ("b", .num 200)]])
      = some [⟨[.range "http_code" [[("a", .num 100), ("b", .num 200)]]], [.count]⟩]
    ∧ aggregationsValidate stubSchema
        [⟨[.range "http_code" [[("a", .num 100), ("b", .num 200)]]], [.count]⟩]
      = false :=
  ⟨rfl, rfl⟩

/-- Claim C1 as amended: for every aggregation input containing a range
group-by one of whose buckets is empty or has a key other than
"from"/"to", `parse_aggregations` succeeds (no structural failure), and
the malformed bucket is reported only when validate is called on the
parsed result, whatever the schema. -/
theorem c1_amended_validation_time (schema : FieldSchema) (f : String)
    (rs : List (List (String × JsonVal)))
    (hbad : ∃ b ∈ rs, b = [] ∨ ∃ kv ∈ b, kv.1 ≠ "from" ∧ kv.1 ≠ "to") :
    parse_aggregations (rangeAggRaw f (rs.map JsonVal.obj))
      = some [⟨[.range f rs], [.count]⟩]
    ∧ aggregationsValidate schema [⟨[.range f rs], [.count]⟩] = false := by
  constructor
  · rw [parse_aggregations_rangeAggRaw, parseBucketList_map_obj]
    rfl
  · obtain ⟨b, hb, hcase⟩ := hbad
    have hvb : validBucket b = false := by
      rcases hcase with rfl | ⟨kv, hkv, h1, h2⟩
      · rfl
      · have : b.all (fun kv => kv.1 = "from" || kv.1 = "to") = false := by
          rw [List.all_eq_false]
          exact ⟨kv, hkv, by simp [h1, h2]⟩
        simp [validBucket, this]
    have hall : rs.all validBucket = false := by
      rw [List.all_eq_false]
      exact ⟨b, hb, by simp [hvb]⟩
    simp [aggregationsValidate, AggregationSpec.validate, GroupOp.validate,
          MetricOp.validate, hall]

/-- Witness for the amended C1, at the concrete malformed input of
test_wrong_range_structure. -/
theorem c1_amended_validation_time_witness :
    parse_aggregations (rangeAggRaw "http_code"
        ([[("a", .num 100), ("b", .num 200)]].map JsonVal.obj))
      = some [⟨[.range "http_code" [[("a", .num 100), ("b", .num 200)]]], [.count]⟩]
    ∧ aggregationsValidate stubSchema
        [⟨[.range "http_code" [[("a", .num 100), ("b", .num 200)]]], [.count]⟩]
      = false :=
  c1_amended_validation_time stubSchema "http_code"
    [[("a", .num 100), ("b", .num 200)]]
    ⟨[("a", .num 100), ("b", .num 200)], by simp,
     Or.inr ⟨("a", .num 100), by simp, by simp, by simp⟩⟩

/- ===== C9: capability failures are validation-time ===== -/

/-- Claim C9: for every aggregation input whose group-by targets a field
lacking the required capability (CATEGORICAL for Distinct, NUMERICAL for
Range, which also covers fields with no aggregation capability at all),
`parse_aggregations` succeeds; the failure is reported only by validate on
the parsed result. -/
theorem c9_capability_checked_at_validate :
    (∀ (schema : FieldSchema) (f : String) (d : FieldDescriptor),
        schema.find f = some d → d.categorical = false →
        parse_aggregations (.arr [.obj [("group_by", .arr [.str f])]])
          = some [⟨[.distinct f], [.count]⟩]
        ∧ aggregationsValidate schema [⟨[.distinct f], [.count]⟩] = false)
    ∧ (∀ (schema : FieldSchema) (f : String) (d : FieldDescriptor),
        schema.find f = some d → d.numerical = false →
        parse_aggregations (rangeAggRaw f [.obj [("to", .num 20)]])
          = some [⟨[.range f [[("to", .num 20)]]], [.count]⟩]
        ∧ aggregationsValidate schema [⟨[.range f [[("to", .num 20)]]], [.count]⟩]
          = false) := by
  constructor
  · intro schema f d hfind hcat
    refine ⟨rfl, ?_⟩
    simp [aggregationsValidate, AggregationSpec.validate, GroupOp.validate,
          MetricOp.validate, hfind, hcat]
  · intro schema f d hfind hnum
    refine ⟨rfl, ?_⟩
    simp [aggregationsValidate, AggregationSpec.validate, GroupOp.validate,
          MetricOp.validate, hfind, hnum]

/-- Witness for C9, at the concrete inputs of test_wrong_agg_field and
test_wrong_range_field: group-by on "path" (no aggregation capability)
and range on "host" (categorical only) both parse and fail validation
against the stub schema. -/
theorem c9_capability_checked_at_validate_witness :
    (parse_aggregations (.arr [.obj [("group_by", .arr [.str "path"])]])
        = some [⟨[.distinct "path"], [.count]⟩]
      ∧ aggregationsValidate stubSchema [⟨[.distinct "path"], [.count]⟩] = false)
    ∧ (parse_aggregations (rangeAggRaw "host" [.obj [("to", .num 20)]])
        = some [⟨[.range "host" [[("to", .num 20)]]], [.count]⟩]
      ∧ aggregationsValidate stubSchema [⟨[.range "host" [[("to", .num 20)]]], [.count]⟩]
        = false) :=
  ⟨c9_capability_checked_at_validate.1 stubSchema "path"
      ⟨"string", false, false, false, false, []⟩ rfl rfl,
   c9_capability_checked_at_validate.2 stubSchema "host"
      ⟨"string", false, true, false, false, []⟩ rfl rfl⟩

/- ===== C10: asymmetric field-right enforcement ===== -/

/-- Claim C10: field-right enforcement is asymmetric: validating a field
selection whose target lacks the SELECT right fails, while validating a
predicate filter whose target carries only the SELECT right (no FILTER
right) succeeds, since FILTER-right enforcement is deactivated; in
particular this holds on the stub schema for filterable_only_field and
selectable_only_field. -/
theorem c10_right_enforcement_asymmetry :
    (∀ (schema : FieldSchema) (f : String) (d : FieldDescriptor),
        schema.find f = some d → d.hasRight "select" = false →
        fieldsValidate schema [f] = false)
    ∧ (∀ (schema : FieldSchema) (f : String) (d : FieldDescriptor) (u : JsonVal),
        schema.find f = some d → d.rights = ["select"] → d.isList = false →
        d.isComposite = false → u.isArr = false →
        Filter.validate schema (.predicate "eq" f (some u)) = true)
    ∧ fieldsValidate stubSchema ["filterable_only_field"] = false
    ∧ Filter.validate stubSchema
        (.predicate "eq" "selectable_only_field" (some (.num 1))) = true := by
  refine ⟨?_, ?_, rfl, rfl⟩
  · intro schema f d hfind hright
    simp [fieldsValidate, hfind, hright]
  · intro schema f d u hfind hrights hlist hcomp harr
    simp [Filter.validate, predicateValidate, predInfo, hfind, hlist, hcomp, harr]

/-- Witness for C10, applying the asymmetry at the two restricted fields
of the stub schema. -/
theorem c10_right_enforcement_asymmetry_witness :
    fieldsValidate stubSchema ["filterable_only_field"] = false
    ∧ Filter.validate stubSchema
        (.predicate "eq" "selectable_only_field" (some (.num 1))) = true :=
  ⟨c10_right_enforcement_asymmetry.1 stubSchema "filterable_only_field"
      ⟨"string", false, false, false, false, ["filters"]⟩ rfl rfl,
   c10_right_enforcement_asymmetry.2.1 stubSchema "selectable_only_field"
      ⟨"string", false, false, false, false, ["select"]⟩ (.num 1) rfl rfl rfl rfl rfl⟩

/- ===== C6: bare "count" is the only string metric ===== -/

/-- Claim C6: in aggregation parsing, "count" is the only metric permitted
as a bare string: any other bare string metric and any unknown group or
metric operator name fail structurally, every known non-count operator
parses in its single-key operator-to-field form, the object forms of
count (a field-name string or a field-spec mapping, both of which Count
ignores) parse to the same Count as the bare shortcut, and the concrete
inputs of test_invalid_agg_op behave accordingly. -/
theorem c6_bare_count_only :
    (∀ s : String, s ≠ "count" → parse_metric (.str s) = none)
    ∧ parse_metric (.str "count") = some MetricOp.count
    ∧ (∀ (k : String) (v : JsonVal), k ≠ "distinct" → k ≠ "range" →
        parse_group_op (.obj [(k, v)]) = none)
    ∧ (∀ (k : String) (v : JsonVal),
        ¬(k = "count" ∨ k = "sum" ∨ k = "avg" ∨ k = "min" ∨ k = "max") →
        parse_metric (.obj [(k, v)]) = none)
    ∧ (∀ (k f : String), (k = "sum" ∨ k = "avg" ∨ k = "min" ∨ k = "max") →
        parse_metric (.obj [(k, .str f)]) = some (.op k f))
    ∧ (∀ f : String, parse_metric (.obj [("count", .str f)])
        = parse_metric (.str "count"))
    ∧ (∀ kvs : List (String × JsonVal), parse_metric (.obj [("count", .obj kvs)])
        = parse_metric (.str "count"))
    ∧ parse_aggregations (.arr [.obj [("group_by", .arr [.str "http_code"]),
                                      ("metrics", .arr [.str "avg"])]]) = none
    ∧ parse_aggregations (.arr [.obj [("group_by", .arr [.str "http_code"]),
                                      ("metrics", .arr [.str "min"])]]) = none
    ∧ parse_aggregations (.arr [.obj [("group_by", .arr [.str "http_code"]),
                                      ("metrics", .arr [.str "max"])]]) = none
    ∧ parse_aggregations (.arr [.obj [("group_by", .arr [.str "http_code"]),
                                      ("metrics", .arr [.str "count"])]])
      = some [⟨[.distinct "http_code"], [.count]⟩] := by
  refine ⟨?_, rfl, ?_, ?_, ?_, fun f => rfl, fun kvs => rfl, rfl, rfl, rfl, rfl⟩
  · intro s h
    simp [parse_metric, h]
  · intro k v h1 h2
    simp [parse_group_op, h1, h2]
  · intro k v h
    push_neg at h
    obtain ⟨h0, h1, h2, h3, h4⟩ := h
    simp [parse_metric, h0, h1, h2, h3, h4]
  · intro k f h
    rcases h with rfl | rfl | rfl | rfl <;> rfl

/-- Witness for C6: the bare string "avg" is rejected, an unknown group
operator is rejected, an unknown metric operator is rejected, the
structured sum metric parses, and the object-form count shortcut parses
like the bare one. -/
theorem c6_bare_count_only_witness :
    parse_metric (.str "avg") = none
    ∧ parse_group_op (.obj [("unknown", .obj [("field", .str "http_code")])]) = none
    ∧ parse_metric (.obj [("unknown", .str "http_code")]) = none
    ∧ parse_metric (.obj [("sum", .str "metadata.title.nb")])
      = some (.op "sum" "metadata.title.nb")
    ∧ parse_metric (.obj [("count", .obj [("field", .str "id")])])
      = parse_metric (.str "count") :=
  ⟨c6_bare_count_only.1 "avg" (by decide),
   c6_bare_count_only.2.2.1 "unknown" (.obj [("field", .str "http_code")])
     (by decide) (by decide),
   c6_bare_count_only.2.2.2.1 "unknown" (.str "http_code") (by decide),
   c6_bare_count_only.2.2.2.2.1 "sum" "metadata.title.nb" (Or.inl rfl),
   c6_bare_count_only.2.2.2.2.2.2.1 [("field", .str "id")]⟩

/- ===== C8: boolean filters ===== -/

/-- Claim C8: a boolean filter compiles to its operator mapped to the
transforms of its children in input order, with an Eq predicate child
becoming a term document; and parsing a boolean filter whose operand is
not a sequence (such as the nested single-filter shorthand of the test)
fails structurally. -/
theorem c8_boolean_filter :
    (∀ (op : String) (xs : List JsonVal) (fs : List Filter),
        (op = "and" ∨ op = "or") → parse_filter_list xs = some fs →
        parse_filter (.obj [(op, .arr xs)]) = some (.boolean op fs)
        ∧ parse_boolean_filter (.obj [(op, .arr xs)]) = some (.boolean op fs))
    ∧ (∀ (op : String) (fs : List Filter),
        Filter.transform (.boolean op fs) = .obj [(op, .arr (fs.map Filter.transform))])
    ∧ (∀ (f : String) (u : JsonVal),
        Filter.transform (.predicate "eq" f (some u)) = .obj [("term", .obj [(f, u)])])
    ∧ (∀ (op : String) (v : JsonVal), (op = "and" ∨ op = "or") → v.isArr = false →
        parse_filter (.obj [(op, v)]) = none
        ∧ parse_boolean_filter (.obj [(op, v)]) = none)
    ∧ parse_filter (.obj [("or", .obj [("and",
        .arr [.obj [("field", .str "http_code"), ("value", .num 200)]])])]) = none
    ∧ (parse_boolean_filter (.obj [("and",
        .arr [.obj [("field", .str "http_code"), ("value", .num 200)]])])).map
        Filter.transform
      = some (.obj [("and", .arr [.obj [("term", .obj [("http_code", .num 200)])]])]) := by
  refine ⟨?_, ?_, fun f u => rfl, ?_, rfl, rfl⟩
  · intro op xs fs hop hxs
    rcases hop with rfl | rfl
    · have h1 : parse_filter (.obj [("and", .arr xs)])
          = (parse_filter_list xs).map (Filter.boolean "and") := rfl
      have h2 : parse_boolean_filter (.obj [("and", .arr xs)])
          = (parse_filter_list xs).map (Filter.boolean "and") := rfl
      rw [h1, h2, hxs]
      exact ⟨rfl, rfl⟩
    · have h1 : parse_filter (.obj [("or", .arr xs)])
          = (parse_filter_list xs).map (Filter.boolean "or") := rfl
      have h2 : parse_boolean_filter (.obj [("or", .arr xs)])
          = (parse_filter_list xs).map (Filter.boolean "or") := rfl
      rw [h1, h2, hxs]
      exact ⟨rfl, rfl⟩
  · intro op fs
    have h1 : Filter.transform (.boolean op fs)
        = .obj [(op, .arr (filterTransformList fs))] := rfl
    rw [h1, filterTransformList_eq_map]
  · intro op v hop hv
    rcases hop with rfl | rfl <;> cases v <;>
      first
        | exact ⟨rfl, rfl⟩
        | simp [JsonVal.isArr] at hv

/-- Witness for C8, at the concrete boolean filter of the test. -/
theorem c8_boolean_filter_witness :
    parse_filter (.obj [("and",
        .arr [.obj [("field", .str "http_code"), ("value", .num 200)]])])
      = some (.boolean "and" [.predicate "eq" "http_code" (some (.num 200))])
    ∧ parse_filter (.obj [("or", .str "x")]) = none :=
  ⟨(c8_boolean_filter.1 "and"
      [.obj [("field", .str "http_code"), ("value", .num 200)]]
      [.predicate "eq" "http_code" (some (.num 200))] (Or.inl rfl) rfl).1,
   (c8_boolean_filter.2.2.2.1 "or" (.str "x") (Or.inr rfl) rfl).1⟩

/- ===== C4: ungrouped aggregations and metric naming ===== -/

theorem metricEntries_getElem (ms : List MetricOp) :
    ∀ (j0 j : Nat) (m : MetricOp), ms[j]? = some m →
      (metricEntries j0 ms)[j]? = some ("metricagg_" ++ pad2 (j0 + j), m.transform) := by
  induction ms with
  | nil => intro j0 j m h; simp at h
  | cons m0 ms ih =>
    intro j0 j m h
    cases j with
    | zero =>
      simp only [List.getElem?_cons_zero, Option.some.injEq] at h
      subst h
      simp [metricEntries]
    | succ j' =>
      simp only [List.getElem?_cons_succ] at h
      have e : j0 + 1 + j' = j0 + (j' + 1) := by omega
      simpa [metricEntries, e] using ih (j0 + 1) j' m h

theorem namedAggEntries_getElem (specs : List AggregationSpec) :
    ∀ (i0 i : Nat) (s : AggregationSpec), specs[i]? = some s → s.group_by = [] →
      (namedAggEntries i0 specs)[i]? = some ("queryagg_" ++ pad2 (i0 + i),
        .obj [("filter", .obj [("match_all", .obj [])]),
              ("aggs", metricLeaf s.metrics)]) := by
  induction specs with
  | nil => intro i0 i s h _; simp at h
  | cons s0 rest ih =>
    intro i0 i s h hgb
    cases i with
    | zero =>
      simp only [List.getElem?_cons_zero, Option.some.injEq] at h
      obtain ⟨gb, ms⟩ := s
      simp only at hgb
      subst hgb
      subst h
      simp [namedAggEntries, aggName, AggregationSpec.transform]
    | succ i' =>
      simp only [List.getElem?_cons_succ] at h
      have e : i0 + 1 + i' = i0 + (i' + 1) := by omega
      simpa [namedAggEntries, e] using ih (i0 + 1) i' s h hgb

/-- Claim C4: a spec at 0-based position i with empty group-by compiles
into the combined document as the synthetic key queryagg_ followed by the
zero-padded i, wrapping a catch-all match filter and the metric leaf; and
the metric at 0-based position j becomes the key metricagg_ followed by
the zero-padded j mapped to its operator document, in metric order. The
concrete ungrouped input of the test compiles to its expected document. -/
theorem c4_ungrouped_aggregation :
    (∀ (specs : List AggregationSpec) (i : Nat) (s : AggregationSpec),
        specs[i]? = some s → s.group_by = [] →
        (namedAggEntries 0 specs)[i]? = some ("queryagg_" ++ pad2 i,
          .obj [("filter", .obj [("match_all", .obj [])]),
                ("aggs", metricLeaf s.metrics)]))
    ∧ (∀ (ms : List MetricOp) (j : Nat) (m : MetricOp), ms[j]? = some m →
        (metricEntries 0 ms)[j]? = some ("metricagg_" ++ pad2 j, m.transform))
    ∧ (parse_aggregations (.arr [.obj [("metrics",
          .arr [.str "count", .obj [("sum", .str "http_code")]])]])).map
        aggregationsTransform
      = some (.obj [("queryagg_00",
          .obj [("filter", .obj [("match_all", .obj [])]),
                ("aggs", .obj [("metricagg_00",
                                  .obj [("value_count", .obj [("field", .str "id")])]),
                               ("metricagg_01",
                                  .obj [("sum", .obj [("field", .str "http_code")])])])])]) := by
  refine ⟨?_, ?_, rfl⟩
  · intro specs i s h1 h2
    simpa using namedAggEntries_getElem specs 0 i s h1 h2
  · intro ms j m h
    simpa using metricEntries_getElem ms 0 j m h

/-- Witness for C4, at the ungrouped spec and two-metric list of
test_parse_no_group_by. -/
theorem c4_ungrouped_aggregation_witness :
    (namedAggEntries 0 [⟨[], [.count, .op "sum" "http_code"]⟩])[0]?
      = some ("queryagg_" ++ pad2 0,
          .obj [("filter", .obj [("match_all", .obj [])]),
                ("aggs", metricLeaf [.count, .op "sum" "http_code"])])
    ∧ (metricEntries 0 [MetricOp.count, .op "sum" "http_code"])[1]?
      = some ("metricagg_" ++ pad2 1, (MetricOp.op "sum" "http_code").transform) :=
  ⟨c4_ungrouped_aggregation.1 [⟨[], [.count, .op "sum" "http_code"]⟩] 0
      ⟨[], [.count, .op "sum" "http_code"]⟩ rfl rfl,
   c4_ungrouped_aggregation.2.1 [.count, .op "sum" "http_code"] 1
      (.op "sum" "http_code") rfl⟩

/- ===== C5: default metric equivalence ===== -/

/-- Claim C5: an aggregation spec mapping with neither a `metrics` nor a
`metric` key parses to exactly the same AST as the same mapping with an
explicit metrics sequence of one count, so its validation and its
compiled output are identical as well, and the parsed metrics are a
single Count. -/
theorem c5_default_metric_equivalence (kvs : List (String × JsonVal))
    (schema : FieldSchema)
    (h1 : List.lookup "metrics" kvs = none) (h2 : List.lookup "metric" kvs = none) :
    parse_aggregation (.obj kvs)
      = parse_aggregation (.obj (("metrics", .arr [.str "count"]) :: kvs))
    ∧ (∀ s, parse_aggregation (.obj kvs) = some s → s.metrics = [MetricOp.count])
    ∧ Option.map AggregationSpec.transform (parse_aggregation (.obj kvs))
      = Option.map AggregationSpec.transform
          (parse_aggregation (.obj (("metrics", .arr [.str "count"]) :: kvs)))
    ∧ Option.map (AggregationSpec.validate schema) (parse_aggregation (.obj kvs))
      = Option.map (AggregationSpec.validate schema)
          (parse_aggregation (.obj (("metrics", .arr [.str "count"]) :: kvs))) := by
  have hm : aggMetricsOf kvs = some [MetricOp.count] := by
    unfold aggMetricsOf
    rw [h1, h2]
  have hm2 : aggMetricsOf (("metrics", JsonVal.arr [.str "count"]) :: kvs)
      = some [MetricOp.count] := rfl
  have hgb : aggGroupByOf (("metrics", JsonVal.arr [.str "count"]) :: kvs)
      = aggGroupByOf kvs := rfl
  have key : parse_aggregation (.obj kvs)
      = parse_aggregation (.obj (("metrics", .arr [.str "count"]) :: kvs)) := by
    simp only [parse_aggregation]
    rw [hm, hm2, hgb]
  refine ⟨key, ?_, by rw [key], by rw [key]⟩
  intro s hs
  simp only [parse_aggregation, hm] at hs
  cases hg : aggGroupByOf kvs with
  | none => rw [hg] at hs; simp at hs
  | some gb =>
    rw [hg] at hs
    simp only [Option.some.injEq] at hs
    rw [← hs]

/-- Witness for C5, at the concrete spec of test_parse_default_metric. -/
theorem c5_default_metric_equivalence_witness :
    parse_aggregation (.obj
        [("group_by", .arr [.obj [("distinct", .obj [("field", .str "http_code")])]])])
      = parse_aggregation (.obj (("metrics", .arr [.str "count"]) ::
          [("group_by", .arr [.obj [("distinct", .obj [("field", .str "http_code")])]])])) :=
  (c5_default_metric_equivalence
    [("group_by", .arr [.obj [("distinct", .obj [("field", .str "http_code")])]])]
    stubSchema rfl rfl).1

end CDF
